import Mathlib

/-!
Verification of `evolutionary_algorithm.py` (an evolutionary-algorithm TSP
solver) against its natural-language specification.

The Python source is shallowly embedded below.  Conventions:

* A city map is a list of 2D coordinates; coordinates are real numbers and the
  Euclidean geometry (`math.sqrt`) is modelled over `ℝ` (these definitions are
  necessarily noncomputable; all other definitions are executable).
* A route is a `List ℕ` of city indices.  Python list indexing `l[i]` is
  modelled by `List.getD l i default`; the claims under scrutiny only evaluate
  it at in-range indices, where the two agree.
* Randomness (`random.shuffle`, `random.sample`, `random.randint`,
  `random.random() <= rate` draws, `random.sample(range(len r), 2)` position
  picks) is threaded explicitly: every stochastic call reads its outcome from
  an explicit argument or stream, and theorems quantify over those outcomes.
* The generational driver only ever *compares* route costs (tournament
  argmin, sort key, best-so-far update), so it is embedded parametrically in
  a cost function `List ℕ → ℚ`; `ℚ` keeps the comparisons decidable and the
  driver executable, and no driver property proved here uses more than the
  linear order that `float` costs also carry.
* Fallible operations (`random.sample` on a too-small population raising
  `ValueError`, `selection[0]` on an empty list raising `IndexError`, and the
  evaluation of the unbound name `parent` in the offspring loop raising
  `NameError`) return `Except RunError`.
* The dedup loop of `initialise_population` need not terminate, so it is
  modelled with explicit fuel returning `Option`; `none` means the loop is
  still running after `fuel` iterations (for every fuel), i.e. divergence.
* `generate_random_route` mutates its argument in place; it is modelled by
  explicit state passing, returning both the route and the new contents of
  the caller's `city_list`.
-/

/-! ## Geometry and route cost (lines 37-56 of the source) -/

/-- `distance_between_coords(x1, x2, y1, y2)`: Euclidean distance
`math.sqrt((x2 - x1)**2 + (y2 - y1)**2)`. -/
noncomputable def distance_between_coords (x1 x2 y1 y2 : ℝ) : ℝ :=
  Real.sqrt ((x2 - x1) ^ 2 + (y2 - y1) ^ 2)

/-- `get_cost_between_cities(cities_map, city_1, city_2)`: distance between the
coordinates of the two cities.  `cities_map[c][0]` / `cities_map[c][1]` is
modelled by the components of `cities_map.getD c (0, 0)`. -/
noncomputable def get_cost_between_cities (cities_map : List (ℝ × ℝ)) (city_1 city_2 : ℕ) : ℝ :=
  distance_between_coords (cities_map.getD city_1 (0, 0)).1 (cities_map.getD city_2 (0, 0)).1
    (cities_map.getD city_1 (0, 0)).2 (cities_map.getD city_2 (0, 0)).2

/-- The `while i < len(route)-1` loop of `get_cost_of_route`: sum of the
distances between consecutive cities of the route. -/
noncomputable def path_cost (cities_map : List (ℝ × ℝ)) : List ℕ → ℝ
  | a :: b :: rest => get_cost_between_cities cities_map a b + path_cost cities_map (b :: rest)
  | _ => 0

/-- `get_cost_of_route(route, cities_map)`: the consecutive-pairs sum plus the
closing edge `get_cost_between_cities(cities_map, route[-1], route[0])`. -/
noncomputable def get_cost_of_route (route : List ℕ) (cities_map : List (ℝ × ℝ)) : ℝ :=
  path_cost cities_map route + get_cost_between_cities cities_map (route.getLastD 0) (route.headD 0)

/-- A valid tour over `n` cities: a permutation of `0..n-1` (the spec's Tour
invariant: no duplicates, no omissions, length `n`). -/
def valid_tour (route : List ℕ) (n : ℕ) : Prop :=
  route.Perm (List.range n)

instance (route : List ℕ) (n : ℕ) : Decidable (valid_tour route n) :=
  List.decidablePerm route (List.range n)

lemma get_cost_between_cities_symm (m : List (ℝ × ℝ)) (a b : ℕ) :
    get_cost_between_cities m a b = get_cost_between_cities m b a := by
  unfold get_cost_between_cities distance_between_coords
  ring_nf

lemma path_cost_nonneg (m : List (ℝ × ℝ)) (l : List ℕ) : 0 ≤ path_cost m l := by
  induction l with
  | nil => simp [path_cost]
  | cons a t ih =>
    cases t with
    | nil => simp [path_cost]
    | cons b rest =>
      have h1 : 0 ≤ get_cost_between_cities m a b := Real.sqrt_nonneg _
      have := ih
      simp only [path_cost] at *
      positivity

lemma path_cost_append_single (m : List (ℝ × ℝ)) (l : List ℕ) (x a : ℕ) :
    path_cost m (x :: l ++ [a])
      = path_cost m (x :: l) + get_cost_between_cities m ((x :: l).getLastD 0) a := by
  induction l generalizing x with
  | nil => simp [path_cost]
  | cons y ys ih =>
    have := ih y
    simp only [List.cons_append, path_cost] at *
    simp only [List.append_eq]
    rw [this]
    have hlast : (x :: y :: ys).getLastD 0 = (y :: ys).getLastD 0 := by
      simp [List.getLastD_eq_getLast?]
    rw [hlast]
    ring

lemma path_cost_reverse (m : List (ℝ × ℝ)) (l : List ℕ) :
    path_cost m l.reverse = path_cost m l := by
  induction l with
  | nil => rfl
  | cons x t ih =>
    cases t with
    | nil => rfl
    | cons y ys =>
      have hne : ((y :: ys).reverse : List ℕ) ≠ [] := by simp
      obtain ⟨z, zs, hz⟩ := List.exists_cons_of_ne_nil hne
      have hrev : (x :: y :: ys).reverse = (y :: ys).reverse ++ [x] := by
        simp [List.reverse_cons]
      rw [hrev, hz, path_cost_append_single, ← hz, ih]
      have hlast : ((y :: ys).reverse.getLastD 0) = y := by
        simp [List.getLastD_eq_getLast?, List.getLast?_reverse]
      rw [hlast]
      simp only [path_cost]
      rw [get_cost_between_cities_symm m y x]
      ring

lemma getLastD_reverse (l : List ℕ) : l.reverse.getLastD 0 = l.headD 0 := by
  simp [List.getLastD_eq_getLast?, List.getLast?_reverse, List.headD_eq_head?]

lemma headD_reverse (l : List ℕ) : l.reverse.headD 0 = l.getLastD 0 := by
  simp [List.headD_eq_head?, List.head?_reverse, List.getLastD_eq_getLast?]

/-- Claim C9: for every valid tour over a coordinate map, the cyclic route cost
is non-negative, and the cost of a tour equals the cost of its exact reverse
(the same closed cycle traversed backward). -/
theorem C9_cost_nonneg_and_reverse_symm (m : List (ℝ × ℝ)) (route : List ℕ)
    (h : valid_tour route m.length) :
    0 ≤ get_cost_of_route route m
      ∧ get_cost_of_route route.reverse m = get_cost_of_route route m := by
  constructor
  · have h1 := path_cost_nonneg m route
    have h2 : 0 ≤ get_cost_between_cities m (route.getLastD 0) (route.headD 0) :=
      Real.sqrt_nonneg _
    unfold get_cost_of_route
    positivity
  · unfold get_cost_of_route
    rw [path_cost_reverse, getLastD_reverse, headD_reverse,
      get_cost_between_cities_symm m (route.headD 0) (route.getLastD 0)]

/-- Witness for C9 at a concrete valid tour over a concrete two-city map. -/
theorem C9_witness :
    valid_tour [1, 0] (List.length [((0 : ℝ), (0 : ℝ)), ((3 : ℝ), (4 : ℝ))])
      ∧ (0 ≤ get_cost_of_route [1, 0] [((0 : ℝ), (0 : ℝ)), ((3 : ℝ), (4 : ℝ))]
          ∧ get_cost_of_route ([1, 0] : List ℕ).reverse [((0 : ℝ), (0 : ℝ)), ((3 : ℝ), (4 : ℝ))]
              = get_cost_of_route [1, 0] [((0 : ℝ), (0 : ℝ)), ((3 : ℝ), (4 : ℝ))]) :=
  ⟨by decide, C9_cost_nonneg_and_reverse_symm _ _ (by decide)⟩

/-! ## Order-1 crossover (lines 73-81 of the source)

`order_one_crossover(route1, route2)` draws `first = randint(0, len(route1)-1)`
and `last = randint(first+1, len(route1))`; the cut points are explicit
parameters here and theorems quantify over exactly those ranges.  The Python
slice `route1[first:last]` is `(route1.drop first).take (last - first)`, and
the `for city in route2` loop that appends each city not yet present is a left
fold. -/

def order_one_crossover (route1 route2 : List ℕ) (first last : ℕ) : List ℕ :=
  route2.foldl (fun new_route city => if city ∈ new_route then new_route else new_route ++ [city])
    ((route1.drop first).take (last - first))

lemma order_one_crossover_foldl_eq (seg : List ℕ) :
    ∀ l : List ℕ, l.Nodup →
      l.foldl (fun new_route city => if city ∈ new_route then new_route else new_route ++ [city]) seg
        = seg ++ l.filter (fun c => decide (c ∉ seg)) := by
  intro l
  induction l generalizing seg with
  | nil => intro _; simp
  | cons c cs ih =>
    intro hnd
    rw [List.nodup_cons] at hnd
    obtain ⟨hc, hcs⟩ := hnd
    by_cases hmem : c ∈ seg
    · rw [List.foldl_cons, if_pos hmem, ih seg hcs]
      have : (List.filter (fun x => decide (x ∉ seg)) (c :: cs))
          = List.filter (fun x => decide (x ∉ seg)) cs := by
        simp [List.filter_cons, hmem]
      rw [this]
    · rw [List.foldl_cons, if_neg hmem, ih (seg ++ [c]) hcs]
      have hfc : (List.filter (fun x => decide (x ∉ seg ++ [c])) cs)
          = List.filter (fun x => decide (x ∉ seg)) cs := by
        apply List.filter_congr
        intro x hx
        have hxc : x ≠ c := fun hxc => hc (hxc ▸ hx)
        simp [List.mem_append, hxc]
      rw [hfc]
      have : (List.filter (fun x => decide (x ∉ seg)) (c :: cs))
          = c :: List.filter (fun x => decide (x ∉ seg)) cs := by
        simp [List.filter_cons, hmem]
      rw [this, List.append_assoc]
      rfl

lemma order_one_crossover_eq (route1 route2 : List ℕ) (first last : ℕ)
    (h2 : route2.Nodup) :
    order_one_crossover route1 route2 first last
      = (route1.drop first).take (last - first)
        ++ route2.filter (fun c => decide (c ∉ (route1.drop first).take (last - first))) :=
  order_one_crossover_foldl_eq _ route2 h2

/-- Counterexample to claim C2 as stated: with parents `p1 = [0,1,2,3]`,
`p2 = [3,2,1,0]` and cut points `first = 1`, `last = 3` (which lie in the
claimed ranges `[0, N-1]` and `[first+1, N]` for `N = 4`), the child is
`[1,2,3,0]` and its slice `[1:3] = [2,3]` differs from `p1[1:3] = [1,2]`:
the crossover puts the copied segment at the *start* of the child, not at
positions `first..last-1`. -/
theorem C2_counterexample :
    valid_tour [0, 1, 2, 3] 4 ∧ valid_tour [3, 2, 1, 0] 4
      ∧ 1 ≤ 4 - 1 ∧ 1 + 1 ≤ 3 ∧ 3 ≤ 4
      ∧ ¬ (((order_one_crossover [0, 1, 2, 3] [3, 2, 1, 0] 1 3).drop 1).take (3 - 1)
            = ((([0, 1, 2, 3] : List ℕ).drop 1).take (3 - 1))) := by
  decide

/-- Claim C2, amended: for valid permutations `p1, p2` of `0..n-1` and cut
points `first ∈ [0, n-1]`, `last ∈ [first+1, n]`, the child's *initial
segment* (its prefix of length `last - first`) equals `p1[first:last]`
exactly, and the child is itself a valid permutation of `0..n-1`. -/
theorem C2_crossover_amended (p1 p2 : List ℕ) (n first last : ℕ)
    (h1 : valid_tour p1 n) (h2 : valid_tour p2 n)
    (hfirst : first ≤ n - 1) (hfl : first + 1 ≤ last) (hlast : last ≤ n) :
    (order_one_crossover p1 p2 first last).take (last - first)
        = (p1.drop first).take (last - first)
      ∧ valid_tour (order_one_crossover p1 p2 first last) n := by
  have hp2nd : p2.Nodup := h2.nodup_iff.mpr (List.nodup_range n)
  have hp1nd : p1.Nodup := h1.nodup_iff.mpr (List.nodup_range n)
  have hlen1 : p1.length = n := by
    have := h1.length_eq; simpa using this
  set seg : List ℕ := (p1.drop first).take (last - first) with hseg
  have hsegsub : seg.Sublist p1 :=
    (List.take_sublist _ _).trans (List.drop_sublist _ _)
  have hsegnd : seg.Nodup := hsegsub.nodup hp1nd
  have hseglen : seg.length = last - first := by
    rw [hseg, List.length_take, List.length_drop, hlen1]
    exact min_eq_left (Nat.sub_le_sub_right hlast first)
  have heq := order_one_crossover_eq p1 p2 first last hp2nd
  rw [← hseg] at heq
  constructor
  · rw [heq, ← hseglen, List.take_left]
  · rw [heq]
    have hfilnd : (p2.filter (fun c => decide (c ∉ seg))).Nodup := hp2nd.filter _
    have hnd : (seg ++ p2.filter (fun c => decide (c ∉ seg))).Nodup := by
      rw [List.nodup_append]
      refine ⟨hsegnd, hfilnd, ?_⟩
      rw [List.disjoint_left]
      intro a ha hafil
      rw [List.mem_filter] at hafil
      exact (of_decide_eq_true hafil.2) ha
    rw [valid_tour, List.perm_ext_iff_of_nodup hnd (List.nodup_range n)]
    intro a
    constructor
    · intro ha
      rcases List.mem_append.mp ha with hseg' | hfil
      · exact h1.mem_iff.mp (hsegsub.subset hseg')
      · exact h2.mem_iff.mp (List.mem_filter.mp hfil).1
    · intro ha
      by_cases hsegmem : a ∈ seg
      · exact List.mem_append.mpr (Or.inl hsegmem)
      · refine List.mem_append.mpr (Or.inr ?_)
        rw [List.mem_filter]
        exact ⟨h2.mem_iff.mpr ha, decide_eq_true hsegmem⟩

/-- Witness for the amended C2 at concrete parents and cut points. -/
theorem C2_amended_witness :
    (valid_tour [0, 1, 2, 3] 4 ∧ valid_tour [3, 2, 1, 0] 4
        ∧ 1 ≤ 4 - 1 ∧ 1 + 1 ≤ 3 ∧ 3 ≤ 4)
      ∧ ((order_one_crossover [0, 1, 2, 3] [3, 2, 1, 0] 1 3).take (3 - 1)
            = (([0, 1, 2, 3] : List ℕ).drop 1).take (3 - 1)
          ∧ valid_tour (order_one_crossover [0, 1, 2, 3] [3, 2, 1, 0] 1 3) 4) :=
  ⟨⟨by decide, by decide, by decide, by decide, by decide⟩,
    C2_crossover_amended [0, 1, 2, 3] [3, 2, 1, 0] 4 1 3 (by decide) (by decide)
      (by decide) (by decide) (by decide)⟩

/-! ## The evolution driver (lines 58-179 of the source)

The driver is embedded parametrically in a cost function `List ℕ → ℚ` (the
source always instantiates it with `get_cost_of_route(route, cities_map)`, a
real number; the driver only compares and sorts costs, which uses nothing
beyond their decidable linear order).  Run-time failures of the Python code
are explicit: -/

/-- Run-time errors the driver can raise: `NameError` from the unbound name
`parent` in the offspring loop (line 141), `ValueError` from `random.sample`
asked for more elements than the population holds, and `IndexError` from
indexing an empty list. -/
inductive RunError where
  | nameErrorParent
  | sampleTooLarge
  | indexError
deriving DecidableEq, Repr

/-- The driver's mutable run state: the current population, and the
best-so-far slot `shortest_route` / `shortest_cost`.  After line 122 of the
source, `shortest_route` holds the *contents* of the `city_list` object it
aliases. -/
structure EAState where
  population : List (List ℕ)
  shortest_route : List ℕ
  shortest_cost : ℚ
deriving DecidableEq, Repr

deriving instance DecidableEq for Except

/-- `random.sample(l, k)`: raises `ValueError` when `k > len(l)`, otherwise
returns `k` elements drawn without replacement; the drawn positions are the
explicit `idxs` argument (callers instantiate it with `k` distinct in-range
indices). -/
def py_sample (l : List (List ℕ)) (k : ℕ) (idxs : List ℕ) : Except RunError (List (List ℕ)) :=
  if k ≤ l.length then .ok (idxs.map (fun i => l.getD i [])) else .error .sampleTooLarge

/-- `tournament_select_route(cities_map, parents, selection_size)`: sample
`selection_size` routes, start from `selection[0]` (an `IndexError` when the
sample is empty), and keep the first strictly cheaper route while scanning the
whole sample. -/
def tournament_select_route (cost : List ℕ → ℚ) (parents : List (List ℕ))
    (selection_size : ℕ) (idxs : List ℕ) : Except RunError (List ℕ) :=
  match py_sample parents selection_size idxs with
  | .error e => .error e
  | .ok [] => .error .indexError
  | .ok (s0 :: rest) =>
      .ok ((s0 :: rest).foldl
        (fun shortest_route route =>
          if cost route < cost shortest_route then route else shortest_route) s0)

/-- The `while len(population) < population_size` loop of
`tournament_selection`, appending one tournament winner per iteration.  The
guard `random.random() < 1` is always true (`random.random()` lies in
`[0, 1)`), so the branch calling `generate_random_route` is dead and the loop
always appends `tournament_select_route(...)`; `j` indexes the per-iteration
sample draw. -/
def tournament_selection_go (cost : List ℕ → ℚ) (parents : List (List ℕ))
    (selection_size : ℕ) (sample_idxs : ℕ → List ℕ) :
    ℕ → ℕ → Except RunError (List (List ℕ))
  | _, 0 => .ok []
  | j, remaining + 1 =>
      match tournament_select_route cost parents selection_size (sample_idxs j) with
      | .error e => .error e
      | .ok w =>
          match tournament_selection_go cost parents selection_size sample_idxs
              (j + 1) remaining with
          | .error e => .error e
          | .ok ws => .ok (w :: ws)

/-- `tournament_selection(cities_map, parents, selection_size, population_size)`:
builds a pool of `population_size` tournament winners. -/
def tournament_selection (cost : List ℕ → ℚ) (parents : List (List ℕ))
    (selection_size population_size : ℕ) (sample_idxs : ℕ → List ℕ) :
    Except RunError (List (List ℕ)) :=
  tournament_selection_go cost parents selection_size sample_idxs 0 population_size

/-- The offspring loop of `evolution` (lines 136-142), one entry of the draw
list per iteration (`random.random() <= recombination_probability`).  On a
successful draw the code evaluates `random.choice(parents)` and then the
call `order_one_crossover(parent, other_parent)`, whose first argument
`parent` is an unbound name: Python raises `NameError` there, before anything
is appended.  On a failed draw the loop appends nothing (it does **not** copy
the primary parent).  Consequently the accumulated offspring list is always
empty, so it is not threaded. -/
def offspring_gen_list : List Bool → Except RunError (List (List ℕ))
  | [] => .ok []
  | draw :: rest => if draw then .error .nameErrorParent else offspring_gen_list rest

/-- The offspring loop run for `count = len(parents) * 3` iterations, reading
draw `i` from the stream. -/
def offspring_gen (recomb_draws : ℕ → Bool) (count : ℕ) :
    Except RunError (List (List ℕ)) :=
  offspring_gen_list ((List.range count).map recomb_draws)

/-- `two_opt_swap(route)`: copies the route and exchanges the cities at the two
sampled positions `i, j` (the second assignment reads the *original* route,
as in the source). -/
def two_opt_swap (route : List ℕ) (i j : ℕ) : List ℕ :=
  (route.set i (route.getD j 0)).set j (route.getD i 0)

/-- The mutation pass of `evolution` (lines 145-149): each offspring is
replaced by `two_opt_swap` of itself when its draw succeeds.
`random.sample(range(0, len(route)), 2)` raises `ValueError` when
`len(route) < 2`.  (The stray `i += 1` in the source's `for` body has no
effect: `for` rebinds `i` from the iterator each round.) -/
def mutation_pass (mut_draws : ℕ → Bool) (mut_pos : ℕ → ℕ × ℕ) :
    ℕ → List (List ℕ) → Except RunError (List (List ℕ))
  | _, [] => .ok []
  | i, r :: rs =>
      if mut_draws i then
        if 2 ≤ r.length then
          match mutation_pass mut_draws mut_pos (i + 1) rs with
          | .error e => .error e
          | .ok rs' => .ok (two_opt_swap r (mut_pos i).1 (mut_pos i).2 :: rs')
        else .error .sampleTooLarge
      else
        match mutation_pass mut_draws mut_pos (i + 1) rs with
        | .error e => .error e
        | .ok rs' => .ok (r :: rs')

/-- One iteration of the `while generation <= termination_max_generations`
loop of `evolution` (lines 130-175): tournament selection, the offspring
loop, the mutation pass, `new_population = parents + offspring` sorted
ascending by cost (Python's `list.sort(key=...)` is a stable ascending sort;
a stable ascending sort's output is uniquely determined by its input, so it
is modelled by the stable, structurally recursive `List.insertionSort`) and
truncated to `population_size` (elitism), then the
best-so-far update, which replaces the record exactly when
`new_cost < shortest_cost` with `new_cost` the cost of `new_population[0]`
(an `IndexError` when the new population is empty). -/
def generation_step (cost : List ℕ → ℚ) (population_size selection_size : ℕ)
    (sample_idxs : ℕ → List ℕ) (recomb_draws : ℕ → Bool)
    (mut_draws : ℕ → Bool) (mut_pos : ℕ → ℕ × ℕ) (st : EAState) :
    Except RunError EAState :=
  match tournament_selection cost st.population selection_size population_size sample_idxs with
  | .error e => .error e
  | .ok parents =>
      match offspring_gen recomb_draws (parents.length * 3) with
      | .error e => .error e
      | .ok offspring =>
          match mutation_pass mut_draws mut_pos 0 offspring with
          | .error e => .error e
          | .ok offspring2 =>
              match (List.insertionSort (fun a b => cost a ≤ cost b)
                  (parents ++ offspring2)).take population_size with
              | [] => .error .indexError
              | new_route :: rest =>
                  if cost new_route < st.shortest_cost then
                    .ok ⟨new_route :: rest, new_route, cost new_route⟩
                  else
                    .ok ⟨new_route :: rest, st.shortest_route, st.shortest_cost⟩

/-- The random outcomes a run consumes, indexed by generation: per-selection
sample index draws, per-slot recombination draws, per-offspring mutation
draws and swap positions. -/
structure RandDraws where
  sample : ℕ → ℕ → List ℕ
  recomb : ℕ → ℕ → Bool
  mutd : ℕ → ℕ → Bool
  mut_pos : ℕ → ℕ → ℕ × ℕ

/-- The generational loop, `remaining` iterations left, current counter
`generation`. -/
def run_generations (cost : List ℕ → ℚ) (population_size selection_size : ℕ)
    (R : RandDraws) : ℕ → ℕ → EAState → Except RunError EAState
  | _, 0, st => .ok st
  | generation, remaining + 1, st =>
      match generation_step cost population_size selection_size (R.sample generation)
          (R.recomb generation) (R.mutd generation) (R.mut_pos generation) st with
      | .error e => .error e
      | .ok st' =>
          run_generations cost population_size selection_size R (generation + 1) remaining st'

/-- `generate_random_route(city_list)` (lines 58-62): shuffles a copy of
`city_list[1:]`, writes it back into `city_list[1:]` **in place** (position 0
stays), and returns `city_list` itself.  State-passing model: given the
shuffled tail, returns `(route, new contents of the caller's city_list)`;
the two components are the same list. -/
def generate_random_route (city_list : List ℕ) (shuffled : List ℕ) : List ℕ × List ℕ :=
  let updated := city_list.take 1 ++ shuffled
  (updated, updated)

/-- `initialise_population(cities_list, population_size)` (lines 103-109): the
dedup loop `while len(population) < population_size`, generating a route,
appending a copy (`new_route[:]`) only if it is not already present, with
**no** retry budget.  `attempt` indexes the shuffle stream; the `city_list`
state is threaded through the in-place `generate_random_route`.  `fuel`
bounds the number of iterations we unfold: `none` means the loop is still
running after `fuel` iterations. -/
def initialise_population (shuffles : ℕ → List ℕ) (population_size : ℕ) :
    ℕ → ℕ → List (List ℕ) → List ℕ → Option (List (List ℕ) × List ℕ)
  | 0, _, population, city_list =>
      if population_size ≤ population.length then some (population, city_list) else none
  | fuel + 1, attempt, population, city_list =>
      if population.length < population_size then
        let nr := generate_random_route city_list (shuffles attempt)
        if nr.1 ∈ population then
          initialise_population shuffles population_size fuel (attempt + 1) population nr.2
        else
          initialise_population shuffles population_size fuel (attempt + 1)
            (population ++ [nr.1]) nr.2
      else some (population, city_list)

/-- Lines 121-127 of `evolution`: `shortest_route = city_list` (an alias!),
`shortest_cost = get_cost_of_route(city_list, cities_map)` — computed on the
*pre-shuffle* contents — then `initialise_population`, which shuffles
`city_list` in place, so the best-so-far slot afterwards reads the shuffled
contents while its cost is still that of the original order. -/
def initial_state (cost : List ℕ → ℚ) (shuffles : ℕ → List ℕ)
    (population_size fuel : ℕ) (city_list : List ℕ) : Option EAState :=
  match initialise_population shuffles population_size fuel 0 [] city_list with
  | none => none
  | some (population, city_list2) => some ⟨population, city_list2, cost city_list⟩

/-- `evolution(...)` (lines 121-179): initial best-so-far and population, then
the generational loop starting at `generation = 1`.  `none` means the
initialization loop diverged. -/
def evolution (cost : List ℕ → ℚ)
    (population_size selection_size max_generations fuel : ℕ)
    (shuffles : ℕ → List ℕ) (R : RandDraws) (city_list : List ℕ) :
    Option (Except RunError EAState) :=
  match initial_state cost shuffles population_size fuel city_list with
  | none => none
  | some st0 =>
      some (run_generations cost population_size selection_size R 1 max_generations st0)

/-- A concrete instantiation of the route cost used by the concrete theorems
below: the cyclic tour length for four cities on the x-axis at abscissae
`0, 1, 2, 4` (all pairwise distances are rational, so this is expressible in
`ℚ` and is the exact value `get_cost_of_route` takes on the corresponding
coordinate map). -/
def int_dist (a b : ℤ) : ℤ :=
  if a ≤ b then b - a else a - b

def line_cost (r : List ℕ) : ℚ :=
  let x : ℕ → ℤ := fun c => ([0, 1, 2, 4] : List ℤ).getD c 0
  ((int_dist (x (r.getD 0 0)) (x (r.getD 1 0)) + int_dist (x (r.getD 1 0)) (x (r.getD 2 0))
    + int_dist (x (r.getD 2 0)) (x (r.getD 3 0)) + int_dist (x (r.getD 3 0)) (x (r.getD 0 0)) : ℤ) : ℚ)

/-! ## Driver lemmas -/

lemma insertionSort_take_head_min (cost : List ℕ → ℚ) (l : List (List ℕ)) (k : ℕ)
    (new_route : List ℕ) (rest : List (List ℕ))
    (h : (List.insertionSort (fun a b => cost a ≤ cost b) l).take k = new_route :: rest) :
    (∀ r ∈ new_route :: rest, cost new_route ≤ cost r)
      ∧ (∀ r ∈ l, cost new_route ≤ cost r) := by
  haveI : IsTotal (List ℕ) (fun a b => cost a ≤ cost b) :=
    ⟨fun a b => le_total (cost a) (cost b)⟩
  haveI : IsTrans (List ℕ) (fun a b => cost a ≤ cost b) :=
    ⟨fun _ _ _ hab hbc => le_trans hab hbc⟩
  have hsorted := List.sorted_insertionSort (fun a b => cost a ≤ cost b) l
  obtain ⟨k', rfl⟩ : ∃ k', k = k' + 1 := by
    cases k with
    | zero => simp at h
    | succ k' => exact ⟨k', rfl⟩
  obtain ⟨s, hs⟩ : ∃ s, List.insertionSort (fun a b => cost a ≤ cost b) l = new_route :: s := by
    cases hms : List.insertionSort (fun a b => cost a ≤ cost b) l with
    | nil => rw [hms] at h; simp at h
    | cons a t =>
      rw [hms, List.take_succ_cons] at h
      obtain ⟨rfl, _⟩ := List.cons.inj h
      exact ⟨t, rfl⟩
  have hrest : rest = s.take k' := by
    rw [hs, List.take_succ_cons] at h
    exact (List.cons.inj h).2.symm
  rw [hs] at hsorted
  have hhead : ∀ b ∈ s, cost new_route ≤ cost b :=
    (List.pairwise_cons.mp hsorted).1
  have hmem : ∀ r ∈ new_route :: s, cost new_route ≤ cost r := by
    intro r hr
    rcases List.mem_cons.mp hr with rfl | hr'
    · exact le_refl _
    · exact hhead r hr'
  constructor
  · intro r hr
    rcases List.mem_cons.mp hr with rfl | hr'
    · exact le_refl _
    · exact hhead r (List.take_subset _ _ (hrest ▸ hr'))
  · intro r hr
    have : r ∈ new_route :: s := by
      rw [← hs]
      exact ((List.perm_insertionSort (fun a b => cost a ≤ cost b) l).mem_iff).mpr hr
    exact hmem r this

lemma generation_step_best_update (cost : List ℕ → ℚ)
    (population_size selection_size : ℕ) (sample_idxs : ℕ → List ℕ)
    (recomb_draws mut_draws : ℕ → Bool) (mut_pos : ℕ → ℕ × ℕ) (st st' : EAState)
    (h : generation_step cost population_size selection_size sample_idxs recomb_draws
        mut_draws mut_pos st = .ok st') :
    (∀ r ∈ st'.population, cost (st'.population.headD []) ≤ cost r)
      ∧ (cost (st'.population.headD []) < st.shortest_cost →
          st'.shortest_cost = cost (st'.population.headD [])
            ∧ st'.shortest_route = st'.population.headD [])
      ∧ (¬ cost (st'.population.headD []) < st.shortest_cost →
          st'.shortest_cost = st.shortest_cost ∧ st'.shortest_route = st.shortest_route)
      ∧ st'.shortest_cost ≤ st.shortest_cost := by
  unfold generation_step at h
  cases hpar : tournament_selection cost st.population selection_size population_size
      sample_idxs with
  | error e => rw [hpar] at h; simp at h
  | ok parents =>
  rw [hpar] at h
  dsimp only at h
  cases hoff : offspring_gen recomb_draws (parents.length * 3) with
  | error e => rw [hoff] at h; simp at h
  | ok offspring =>
  rw [hoff] at h
  dsimp only at h
  cases hmut : mutation_pass mut_draws mut_pos 0 offspring with
  | error e => rw [hmut] at h; simp at h
  | ok offspring2 =>
  rw [hmut] at h
  dsimp only at h
  cases hpop : (List.insertionSort (fun a b => cost a ≤ cost b)
      (parents ++ offspring2)).take population_size with
  | nil => rw [hpop] at h; simp at h
  | cons new_route rest =>
  rw [hpop] at h
  dsimp only at h
  have hmin := insertionSort_take_head_min cost (parents ++ offspring2) population_size
    new_route rest hpop
  by_cases hlt : cost new_route < st.shortest_cost
  · rw [if_pos hlt] at h
    simp only [Except.ok.injEq] at h
    subst h
    refine ⟨hmin.1, fun _ => ⟨rfl, rfl⟩, fun hn => absurd hlt hn, le_of_lt hlt⟩
  · rw [if_neg hlt] at h
    simp only [Except.ok.injEq] at h
    subst h
    exact ⟨hmin.1, fun hlt' => absurd hlt' hlt, fun _ => ⟨rfl, rfl⟩, le_refl _⟩

lemma run_generations_best_mono (cost : List ℕ → ℚ)
    (population_size selection_size : ℕ) (R : RandDraws) :
    ∀ (n g : ℕ) (st st' : EAState),
      run_generations cost population_size selection_size R g n st = .ok st' →
        st'.shortest_cost ≤ st.shortest_cost := by
  intro n
  induction n with
  | zero =>
    intro g st st' h
    simp only [run_generations, Except.ok.injEq] at h
    subst h
    exact le_refl _
  | succ n ih =>
    intro g st st' h
    unfold run_generations at h
    cases hstep : generation_step cost population_size selection_size (R.sample g)
        (R.recomb g) (R.mutd g) (R.mut_pos g) st with
    | error e => rw [hstep] at h; simp at h
    | ok st1 =>
      rw [hstep] at h
      exact le_trans (ih (g + 1) st1 st' h)
        (generation_step_best_update _ _ _ _ _ _ _ _ _ hstep).2.2.2

/-! ## Claims about the driver -/

/-- Claim C1 as stated is contradicted by the code (the spec's design notes
themselves flag the unbound `parent` as a source defect): on every successful
recombination draw the offspring loop evaluates the unbound name `parent` and
raises `NameError`, and on a failed draw it appends nothing at all — the
offspring is *not* the primary parent, and a completed loop always yields an
empty offspring list.  Evaluated here at one parent (three offspring slots):
all draws succeeding raises, all draws failing yields no offspring. -/
theorem C1_offspring_unbound_parent :
    offspring_gen (fun _ => true) 3 = .error .nameErrorParent
      ∧ offspring_gen (fun _ => false) 3 = .ok ([] : List (List ℕ)) := by
  exact ⟨rfl, rfl⟩

/-- Claim C3: whenever a generation step succeeds, `new_population[0]` (the
head of the sorted, truncated population) realises the new population's
minimum cost; the best-so-far record is replaced exactly when that minimum is
strictly lower than the retained best-so-far cost and is left untouched
otherwise; the best-so-far cost never increases in a step, hence it is
non-increasing across every completed run of the generational loop. -/
theorem C3_best_so_far_monotone :
    (∀ (cost : List ℕ → ℚ) (population_size selection_size : ℕ)
        (sample_idxs : ℕ → List ℕ) (recomb_draws mut_draws : ℕ → Bool)
        (mut_pos : ℕ → ℕ × ℕ) (st st' : EAState),
      generation_step cost population_size selection_size sample_idxs recomb_draws
          mut_draws mut_pos st = .ok st' →
        (∀ r ∈ st'.population, cost (st'.population.headD []) ≤ cost r)
          ∧ (cost (st'.population.headD []) < st.shortest_cost →
              st'.shortest_cost = cost (st'.population.headD [])
                ∧ st'.shortest_route = st'.population.headD [])
          ∧ (¬ cost (st'.population.headD []) < st.shortest_cost →
              st'.shortest_cost = st.shortest_cost
                ∧ st'.shortest_route = st.shortest_route)
          ∧ st'.shortest_cost ≤ st.shortest_cost)
      ∧ (∀ (cost : List ℕ → ℚ) (population_size selection_size : ℕ) (R : RandDraws)
          (n g : ℕ) (st st' : EAState),
        run_generations cost population_size selection_size R g n st = .ok st' →
          st'.shortest_cost ≤ st.shortest_cost) :=
  ⟨fun cost ps ss si rd md mp st st' h =>
      generation_step_best_update cost ps ss si rd md mp st st' h,
    fun cost ps ss R n g st st' h =>
      run_generations_best_mono cost ps ss R n g st st' h⟩

/-- Witness for C3: a concrete successful step and run, with the concluded
best-so-far inequality. -/
theorem C3_witness :
    (generation_step (fun r => (r.headD 0 : ℚ)) 1 1 (fun _ => [0]) (fun _ => false)
          (fun _ => false) (fun _ => (0, 0)) ⟨[[0, 1], [1, 0]], [0, 1], 5⟩
        = .ok ⟨[[0, 1]], [0, 1], 0⟩)
      ∧ (run_generations (fun r => (r.headD 0 : ℚ)) 1 1
            ⟨fun _ _ => [0], fun _ _ => false, fun _ _ => false, fun _ _ => (0, 0)⟩ 1 1
            ⟨[[0, 1], [1, 0]], [0, 1], 5⟩
          = .ok ⟨[[0, 1]], [0, 1], 0⟩)
      ∧ (EAState.mk [[0, 1]] [0, 1] 0).shortest_cost
          ≤ (EAState.mk [[0, 1], [1, 0]] [0, 1] 5).shortest_cost :=
  ⟨by decide, by decide,
    C3_best_so_far_monotone.2 (fun r => (r.headD 0 : ℚ)) 1 1
      ⟨fun _ _ => [0], fun _ _ => false, fun _ _ => false, fun _ _ => (0, 0)⟩ 1 1
      ⟨[[0, 1], [1, 0]], [0, 1], 5⟩ ⟨[[0, 1]], [0, 1], 0⟩ (by decide)⟩

/-- Counterexample to claim C4 as stated: tournament selection samples
*without* any guarantee of hitting the old population's best member, so the
elitist truncation of `parents + offspring` can lose it.  Concretely: the
population holds routes of costs `0` and `1`; every tournament of size 1
samples index 1 (the cost-1 route), every recombination draw fails (so the
offspring list is empty), and the next population is two copies of the cost-1
route — its minimum cost strictly exceeds the old population's minimum. -/
theorem C4_counterexample :
    generation_step (fun r => (r.headD 0 : ℚ)) 2 1 (fun _ => [1]) (fun _ => false)
        (fun _ => false) (fun _ => (0, 0)) ⟨[[0, 1], [1, 0]], [0, 1], 0⟩
      = .ok ⟨[[1, 0], [1, 0]], [0, 1], 0⟩
    ∧ [0, 1] ∈ (EAState.mk [[0, 1], [1, 0]] [0, 1] 0).population
    ∧ (∀ s ∈ (EAState.mk [[1, 0], [1, 0]] [0, 1] 0).population,
        (fun (r : List ℕ) => (r.headD 0 : ℚ)) [0, 1]
          < (fun (r : List ℕ) => (r.headD 0 : ℚ)) s) := by
  exact ⟨by decide, by decide, by decide⟩

/-- Claim C4, amended: under the elitist truncation, the new population's
minimum cost (the cost of `new_population[0]`) is at most the cost of every
member of the *selected parent pool*; hence population-best non-regression
holds exactly when some selected parent matches the old population's minimum
cost — tournament selection does not guarantee that, as the counterexample
shows. -/
theorem C4_elitist_amended (cost : List ℕ → ℚ)
    (population_size selection_size : ℕ) (sample_idxs : ℕ → List ℕ)
    (recomb_draws mut_draws : ℕ → Bool) (mut_pos : ℕ → ℕ × ℕ)
    (st st' : EAState) (parents : List (List ℕ)) (p : List ℕ)
    (hpar : tournament_selection cost st.population selection_size population_size
        sample_idxs = .ok parents)
    (h : generation_step cost population_size selection_size sample_idxs recomb_draws
        mut_draws mut_pos st = .ok st')
    (hp : p ∈ parents)
    (hple : ∀ r ∈ st.population, cost p ≤ cost r) :
    ∀ r ∈ st.population, cost (st'.population.headD []) ≤ cost r := by
  unfold generation_step at h
  rw [hpar] at h
  dsimp only at h
  cases hoff : offspring_gen recomb_draws (parents.length * 3) with
  | error e => rw [hoff] at h; simp at h
  | ok offspring =>
  rw [hoff] at h
  dsimp only at h
  cases hmut : mutation_pass mut_draws mut_pos 0 offspring with
  | error e => rw [hmut] at h; simp at h
  | ok offspring2 =>
  rw [hmut] at h
  dsimp only at h
  cases hpop : (List.insertionSort (fun a b => cost a ≤ cost b)
      (parents ++ offspring2)).take population_size with
  | nil => rw [hpop] at h; simp at h
  | cons new_route rest =>
  rw [hpop] at h
  dsimp only at h
  have hmin := insertionSort_take_head_min cost (parents ++ offspring2) population_size
    new_route rest hpop
  have hhead : st'.population.headD [] = new_route := by
    by_cases hlt : cost new_route < st.shortest_cost
    · rw [if_pos hlt] at h
      simp only [Except.ok.injEq] at h
      subst h; rfl
    · rw [if_neg hlt] at h
      simp only [Except.ok.injEq] at h
      subst h; rfl
  intro r hr
  rw [hhead]
  exact le_trans (hmin.2 p (List.mem_append_left _ hp)) (hple r hr)

/-- Witness for the amended C4: when the sampled tournaments do contain the
old best (cost 0), the step keeps the new minimum at most every old cost. -/
theorem C4_amended_witness :
    (tournament_selection (fun r => (r.headD 0 : ℚ)) [[0, 1], [1, 0]] 1 2 (fun _ => [0])
        = .ok [[0, 1], [0, 1]])
      ∧ (generation_step (fun r => (r.headD 0 : ℚ)) 2 1 (fun _ => [0]) (fun _ => false)
            (fun _ => false) (fun _ => (0, 0)) ⟨[[0, 1], [1, 0]], [0, 1], 0⟩
          = .ok ⟨[[0, 1], [0, 1]], [0, 1], 0⟩)
      ∧ ([0, 1] ∈ ([[0, 1], [0, 1]] : List (List ℕ)))
      ∧ (∀ r ∈ (EAState.mk [[0, 1], [1, 0]] [0, 1] 0).population,
          (fun (r : List ℕ) => (r.headD 0 : ℚ)) [0, 1]
            ≤ (fun (r : List ℕ) => (r.headD 0 : ℚ)) r)
      ∧ ∀ r ∈ (EAState.mk [[0, 1], [1, 0]] [0, 1] 0).population,
          (fun (r : List ℕ) => (r.headD 0 : ℚ))
              ((EAState.mk [[0, 1], [0, 1]] [0, 1] 0).population.headD [])
            ≤ (fun (r : List ℕ) => (r.headD 0 : ℚ)) r :=
  ⟨by decide, by decide, by decide, by decide,
    C4_elitist_amended (fun r => (r.headD 0 : ℚ)) 2 1 (fun _ => [0]) (fun _ => false)
      (fun _ => false) (fun _ => (0, 0)) ⟨[[0, 1], [1, 0]], [0, 1], 0⟩
      ⟨[[0, 1], [0, 1]], [0, 1], 0⟩ [[0, 1], [0, 1]] [0, 1]
      (by decide) (by decide) (by decide) (by decide)⟩

/-- Claim C5 is contradicted by the code: a single-city run does *not*
complete.  With `population_size = 1` (the only size for which initialization
can even finish, see C7) and the script's own configuration
`recombination_probability = 1` (every draw succeeds), the first offspring
iteration evaluates the unbound name `parent` and the run raises `NameError`
instead of terminating with `best_so_far_cost = 0`. -/
theorem C5_single_city_run_raises :
    evolution (fun r => (r.headD 0 : ℚ)) 1 1 1 4 (fun _ => [])
        ⟨fun _ _ => [0], fun _ _ => true, fun _ _ => false, fun _ _ => (0, 0)⟩ [0]
      = some (.error .nameErrorParent) := by
  decide

lemma initialise_population_single_city_stuck :
    ∀ fuel attempt,
      initialise_population (fun _ => []) 2 fuel attempt [[0]] [0] = none := by
  intro fuel
  induction fuel with
  | zero => intro attempt; rfl
  | succ fuel ih =>
    intro attempt
    have := ih (attempt + 1)
    simpa [initialise_population, generate_random_route] using this

/-- Claim C7 is contradicted by the code: `initialise_population` has *no*
retry budget.  For `n_cities = 1` (`city_list = [0]`) and
`population_size = 2` the only generatable route is `[0]`; after it enters
the population every further attempt is rejected as a duplicate, and the
`while` loop never exits: for every number of unfolded iterations the loop is
still running (the source's own header even says repetitions are allowed). -/
theorem C7_init_nontermination :
    ∀ fuel, initialise_population (fun _ => []) 2 fuel 0 [] [0] = none := by
  intro fuel
  cases fuel with
  | zero => rfl
  | succ fuel =>
    have := initialise_population_single_city_stuck fuel 1
    simpa [initialise_population, generate_random_route] using this

/-- Claim C8 is contradicted by the code: line 122 binds `shortest_route` to
the `city_list` *object*, and `initialise_population` then shuffles that
object in place, while `shortest_cost` (computed on line 123, before the
shuffle) still holds the cost of the original order.  Concretely, for four
cities on a line at abscissae `0, 1, 2, 4` and a shuffle producing the tail
`[2, 1, 3]`: after initialization the best-so-far slot reads `[0, 2, 1, 3]`
(cost `10`) while the stored cost is `8`, the cost of the pre-shuffle order
`[0, 1, 2, 3]` — the stored cost does not match the stored tour. -/
theorem C8_best_so_far_alias_mismatch :
    initial_state line_cost (fun _ => [2, 1, 3]) 1 3 [0, 1, 2, 3]
        = some ⟨[[0, 2, 1, 3]], [0, 2, 1, 3], 8⟩
      ∧ line_cost [0, 2, 1, 3] = 10
      ∧ (8 : ℚ) ≠ 10 := by
  exact ⟨by decide, by decide, by decide⟩

/-- Claim C10 (implicit): `generate_random_route` mutates its argument in
place — the route it returns *is* the caller's `city_list` after the update,
whose position 0 is kept and whose tail is replaced by the shuffled copy —
and consequently `initialise_population` (and through it `evolution`)
permanently reorders the caller's `city_list`: concretely, initializing from
`[0, 1, 2]` with a shuffle producing `[2, 1]` leaves the caller's list as
`[0, 2, 1]`. -/
theorem C10_generate_random_route_in_place (city_list shuffled : List ℕ)
    (hne : city_list ≠ []) :
    ((generate_random_route city_list shuffled).1
        = (generate_random_route city_list shuffled).2
      ∧ (generate_random_route city_list shuffled).2.headD 0 = city_list.headD 0
      ∧ (generate_random_route city_list shuffled).2.drop 1 = shuffled)
      ∧ initialise_population (fun _ => [2, 1]) 1 4 0 [] [0, 1, 2]
          = some ([[0, 2, 1]], [0, 2, 1]) := by
  obtain ⟨c, cs, rfl⟩ := List.exists_cons_of_ne_nil hne
  exact ⟨⟨rfl, by simp [generate_random_route], by simp [generate_random_route]⟩, by decide⟩

/-- Witness for C10 at a concrete city list and shuffle. -/
theorem C10_witness :
    (([0, 1, 2] : List ℕ) ≠ [])
      ∧ (((generate_random_route [0, 1, 2] [2, 1]).1
            = (generate_random_route [0, 1, 2] [2, 1]).2
          ∧ (generate_random_route [0, 1, 2] [2, 1]).2.headD 0
              = ([0, 1, 2] : List ℕ).headD 0
          ∧ (generate_random_route [0, 1, 2] [2, 1]).2.drop 1 = [2, 1])
          ∧ initialise_population (fun _ => [2, 1]) 1 4 0 [] [0, 1, 2]
              = some ([[0, 2, 1]], [0, 2, 1])) :=
  ⟨by decide, C10_generate_random_route_in_place [0, 1, 2] [2, 1] (by decide)⟩

lemma initialise_population_length (shuffles : ℕ → List ℕ) (population_size : ℕ) :
    ∀ (fuel attempt : ℕ) (pop0 : List (List ℕ)) (cl0 : List ℕ)
      (pop : List (List ℕ)) (cl : List ℕ),
      initialise_population shuffles population_size fuel attempt pop0 cl0
          = some (pop, cl) →
        pop0.length ≤ population_size → pop.length = population_size := by
  intro fuel
  induction fuel with
  | zero =>
    intro attempt pop0 cl0 pop cl h hle
    unfold initialise_population at h
    by_cases hc : population_size ≤ pop0.length
    · rw [if_pos hc] at h
      simp only [Option.some.injEq, Prod.mk.injEq] at h
      obtain ⟨rfl, rfl⟩ := h.symm
      exact le_antisymm hle hc
    · rw [if_neg hc] at h
      exact absurd h (by simp)
  | succ fuel ih =>
    intro attempt pop0 cl0 pop cl h hle
    unfold initialise_population at h
    by_cases hc : pop0.length < population_size
    · rw [if_pos hc] at h
      dsimp only at h
      by_cases hm : (generate_random_route cl0 (shuffles attempt)).1 ∈ pop0
      · rw [if_pos hm] at h
        exact ih (attempt + 1) pop0 _ pop cl h (le_of_lt hc)
      · rw [if_neg hm] at h
        refine ih (attempt + 1) (pop0 ++ [(generate_random_route cl0 (shuffles attempt)).1])
          _ pop cl h ?_
        simpa using hc
    · rw [if_neg hc] at h
      simp only [Option.some.injEq, Prod.mk.injEq] at h
      obtain ⟨rfl, rfl⟩ := h.symm
      exact le_antisymm hle (le_of_not_lt hc)

/-- Claim C6, amended: the code performs *no* configuration validation (there
is no `ConfigurationError` anywhere).  With `tournament_size >
population_size` (and at least one generation requested), initialization
completes, the generational loop starts, and the failure is the `ValueError`
raised by `random.sample` inside the first generation's tournament selection
— after partial execution, not before the loop. -/
theorem C6_no_configuration_validation (cost : List ℕ → ℚ)
    (population_size selection_size max_generations fuel : ℕ)
    (shuffles : ℕ → List ℕ) (R : RandDraws) (city_list : List ℕ)
    (pop : List (List ℕ)) (cl : List ℕ)
    (hinit : initialise_population shuffles population_size fuel 0 [] city_list
        = some (pop, cl))
    (hsize : population_size < selection_size)
    (hpos : 1 ≤ population_size) (hgen : 1 ≤ max_generations) :
    evolution cost population_size selection_size max_generations fuel shuffles R city_list
      = some (.error .sampleTooLarge) := by
  have hlen : pop.length = population_size :=
    initialise_population_length shuffles population_size fuel 0 [] city_list pop cl hinit
      (by simp)
  obtain ⟨m, rfl⟩ : ∃ m, max_generations = m + 1 :=
    ⟨max_generations - 1, (Nat.succ_pred_eq_of_pos hgen).symm⟩
  obtain ⟨k, hk⟩ : ∃ k, population_size = k + 1 :=
    ⟨population_size - 1, (Nat.succ_pred_eq_of_pos hpos).symm⟩
  have hsr : tournament_select_route cost pop selection_size (R.sample 1 0)
      = .error .sampleTooLarge := by
    unfold tournament_select_route py_sample
    rw [if_neg (by rw [hlen]; exact Nat.not_le.mpr hsize)]
  have hts : tournament_selection cost pop selection_size population_size (R.sample 1)
      = .error .sampleTooLarge := by
    unfold tournament_selection
    rw [hk]
    unfold tournament_selection_go
    rw [hsr]
  have hstep : generation_step cost population_size selection_size (R.sample 1)
      (R.recomb 1) (R.mutd 1) (R.mut_pos 1) ⟨pop, cl, cost city_list⟩
        = .error .sampleTooLarge := by
    unfold generation_step
    dsimp only
    rw [hts]
  unfold evolution initial_state
  rw [hinit]
  dsimp only
  unfold run_generations
  rw [hstep]

/-- Counterexample to claim C6 as stated (the invalid-config scenario
`tournament_size = 10 > population_size = 5`): initialization completes with
five distinct routes — partial execution — and the run then fails inside
generation 1 with the sampling `ValueError`, not with any `ConfigurationError`
before the loop (no validation exists in the code). -/
theorem C6_counterexample :
    (initialise_population
        (fun t => ([[1, 2, 3, 4], [2, 1, 3, 4], [3, 1, 2, 4], [4, 1, 2, 3],
          [2, 3, 4, 1]] : List (List ℕ)).getD t [1, 2, 3, 4]) 5 12 0 [] [0, 1, 2, 3, 4]
        = some ([[0, 1, 2, 3, 4], [0, 2, 1, 3, 4], [0, 3, 1, 2, 4], [0, 4, 1, 2, 3],
            [0, 2, 3, 4, 1]], [0, 2, 3, 4, 1]))
      ∧ evolution (fun r => (r.headD 0 : ℚ)) 5 10 3 12
          (fun t => ([[1, 2, 3, 4], [2, 1, 3, 4], [3, 1, 2, 4], [4, 1, 2, 3],
            [2, 3, 4, 1]] : List (List ℕ)).getD t [1, 2, 3, 4])
          ⟨fun _ _ => [0], fun _ _ => false, fun _ _ => false, fun _ _ => (0, 0)⟩
          [0, 1, 2, 3, 4]
        = some (.error .sampleTooLarge) := by
  exact ⟨by decide, by decide⟩

/-- Witness for the amended C6 at the scenario's concrete configuration. -/
theorem C6_amended_witness :
    (initialise_population
        (fun t => ([[1, 2, 3, 4], [2, 1, 3, 4], [3, 1, 2, 4], [4, 1, 2, 3],
          [2, 3, 4, 1]] : List (List ℕ)).getD t [1, 2, 3, 4]) 5 12 0 [] [0, 1, 2, 3, 4]
        = some ([[0, 1, 2, 3, 4], [0, 2, 1, 3, 4], [0, 3, 1, 2, 4], [0, 4, 1, 2, 3],
            [0, 2, 3, 4, 1]], [0, 2, 3, 4, 1]))
      ∧ (5 : ℕ) < 10 ∧ (1 : ℕ) ≤ 5 ∧ (1 : ℕ) ≤ 3
      ∧ evolution (fun r => (r.headD 0 : ℚ)) 5 10 3 12
          (fun t => ([[1, 2, 3, 4], [2, 1, 3, 4], [3, 1, 2, 4], [4, 1, 2, 3],
            [2, 3, 4, 1]] : List (List ℕ)).getD t [1, 2, 3, 4])
          ⟨fun _ _ => [1], fun _ _ => true, fun _ _ => true, fun _ _ => (1, 2)⟩
          [0, 1, 2, 3, 4]
        = some (.error .sampleTooLarge) :=
  ⟨by decide, by decide, by decide, by decide,
    C6_no_configuration_validation (fun r => (r.headD 0 : ℚ)) 5 10 3 12
      (fun t => ([[1, 2, 3, 4], [2, 1, 3, 4], [3, 1, 2, 4], [4, 1, 2, 3],
        [2, 3, 4, 1]] : List (List ℕ)).getD t [1, 2, 3, 4])
      ⟨fun _ _ => [1], fun _ _ => true, fun _ _ => true, fun _ _ => (1, 2)⟩
      [0, 1, 2, 3, 4]
      [[0, 1, 2, 3, 4], [0, 2, 1, 3, 4], [0, 3, 1, 2, 4], [0, 4, 1, 2, 3], [0, 2, 3, 4, 1]]
      [0, 2, 3, 4, 1] (by decide) (by decide) (by decide) (by decide)⟩
